import Mathlib

/-!
Shallow embedding of `src/ai_gradio/providers/novita_gradio.py`.

The streaming chat function `fn` (lines 31-71) reads newline-delimited
SSE frames, decodes `data:`-prefixed JSON payloads, accumulates the
first choice's delta text and yields the accumulated message after each
delta.  We model the frames a call receives as a `List String` (the
decoded lines produced by `response.iter_lines()`), a transport-level
failure of `requests.post`/`raise_for_status` as an optional error
message, and the generator's yielded values as the resulting
`List String`.

Python's `json.loads` is modelled by an executable recursive-descent
parser over `Json`; Python dynamic operations (`chunk["choices"]`,
truthiness, `[0]`, `.get`) are modelled by total functions returning
`Except PyErr`, mirroring which Python exceptions escape the inner
`except json.JSONDecodeError` handler and reach the outer catch-all.
-/

namespace Novita

/-- JSON values, as produced by Python's `json.loads`.  Numbers keep
their literal text (the claims never depend on numeric value beyond
zero-ness, which `truthy` computes from the literal). -/
inductive Json where
  | null
  | bool (b : Bool)
  | num (lit : String)
  | str (s : String)
  | arr (xs : List Json)
  | obj (kvs : List (String × Json))
deriving Repr

/-- Python `str.startswith`, on the characters of the string. -/
def pyStartsWith (s p : String) : Bool :=
  List.isPrefixOf p.data s.data

/-- Python `line[5:]` (character slicing). -/
def pyDrop (n : Nat) (s : String) : String :=
  ⟨s.data.drop n⟩

def isPyWs (c : Char) : Bool :=
  c = ' ' || c = '\t' || c = '\n' || c = '\r' || c = '\x0b' || c = '\x0c'

/-- Python `str.strip()` with no argument: whitespace off both ends. -/
def pyStrip (s : String) : String :=
  ⟨((s.data.dropWhile isPyWs).reverse.dropWhile isPyWs).reverse⟩

/-- Python `str.strip(".")`: dots off both ends. -/
def pyStripDots (s : String) : String :=
  ⟨((s.data.dropWhile (fun c => c = '.')).reverse.dropWhile (fun c => c = '.')).reverse⟩

/-- ASCII lowercasing (models Python `str.lower()` on the ASCII
extensions compared against the supported-image list). -/
def asciiLower (s : String) : String :=
  ⟨s.data.map (fun c =>
    if 'A' ≤ c && c ≤ 'Z' then Char.ofNat (c.toNat + 32) else c)⟩

/-- Whitespace skipped by `json.loads` between tokens. -/
def skipWs : List Char → List Char
  | c :: cs => if c = ' ' || c = '\t' || c = '\n' || c = '\r' then skipWs cs else c :: cs
  | [] => []

def isDigit (c : Char) : Bool := '0' ≤ c && c ≤ '9'

def takeDigits : List Char → (List Char × List Char)
  | [] => ([], [])
  | c :: cs =>
    if isDigit c then
      let p := takeDigits cs
      (c :: p.1, p.2)
    else ([], c :: cs)

def isHexDigit (c : Char) : Bool :=
  isDigit c || ('a' ≤ c && c ≤ 'f') || ('A' ≤ c && c ≤ 'F')

def hexVal (c : Char) : Nat :=
  if isDigit c then c.toNat - '0'.toNat
  else if 'a' ≤ c && c ≤ 'f' then c.toNat - 'a'.toNat + 10
  else if 'A' ≤ c && c ≤ 'F' then c.toNat - 'A'.toNat + 10
  else 0

/-- Body of a JSON string literal (after the opening quote): the decoded
characters and the rest of the input after the closing quote.  Escapes
follow the JSON grammar; unescaped control characters are rejected, as
in Python's strict default.  (`\uXXXX` surrogate pairing is not
modelled; no input in this development uses `\u`.) -/
def pStrChars : Nat → List Char → Option (List Char × List Char)
  | 0, _ => none
  | _ + 1, [] => none
  | _ + 1, '"' :: rest => some ([], rest)
  | n + 1, '\\' :: e :: rest =>
    match e with
    | '"' => (pStrChars n rest).map (fun p => ('"' :: p.1, p.2))
    | '\\' => (pStrChars n rest).map (fun p => ('\\' :: p.1, p.2))
    | '/' => (pStrChars n rest).map (fun p => ('/' :: p.1, p.2))
    | 'b' => (pStrChars n rest).map (fun p => ('\x08' :: p.1, p.2))
    | 'f' => (pStrChars n rest).map (fun p => ('\x0c' :: p.1, p.2))
    | 'n' => (pStrChars n rest).map (fun p => ('\n' :: p.1, p.2))
    | 'r' => (pStrChars n rest).map (fun p => ('\r' :: p.1, p.2))
    | 't' => (pStrChars n rest).map (fun p => ('\t' :: p.1, p.2))
    | 'u' =>
      match rest with
      | h1 :: h2 :: h3 :: h4 :: rest2 =>
        if isHexDigit h1 && isHexDigit h2 && isHexDigit h3 && isHexDigit h4 then
          let code := ((hexVal h1 * 16 + hexVal h2) * 16 + hexVal h3) * 16 + hexVal h4
          (pStrChars n rest2).map (fun p => (Char.ofNat code :: p.1, p.2))
        else none
      | _ => none
    | _ => none
  | n + 1, c :: rest =>
    if c.toNat < 32 then none
    else (pStrChars n rest).map (fun p => (c :: p.1, p.2))

/-- A JSON number literal: optional sign, `0 | [1-9][0-9]*`, optional
fraction, optional exponent.  Returns the literal characters and the
rest. -/
def pNum (cs : List Char) : Option (List Char × List Char) :=
  let signPart : List Char × List Char :=
    match cs with
    | '-' :: r => (['-'], r)
    | _ => ([], cs)
  match signPart.2 with
  | '0' :: r => some (signPart.1 ++ ['0'], r)
  | c :: r =>
    if isDigit c then
      let p := takeDigits r
      some (signPart.1 ++ (c :: p.1), p.2)
    else none
  | [] => none

def pFrac (cs : List Char) : List Char × List Char :=
  match cs with
  | '.' :: r =>
    match takeDigits r with
    | ([], _) => ([], cs)
    | (ds, rest) => ('.' :: ds, rest)
  | _ => ([], cs)

def pExp (cs : List Char) : List Char × List Char :=
  match cs with
  | e :: r =>
    if e = 'e' || e = 'E' then
      let signPart : List Char × List Char :=
        match r with
        | '+' :: r2 => (['+'], r2)
        | '-' :: r2 => (['-'], r2)
        | _ => ([], r)
      match takeDigits signPart.2 with
      | ([], _) => ([], cs)
      | (ds, rest) => (e :: (signPart.1 ++ ds), rest)
    else ([], cs)
  | [] => ([], cs)

/-- A complete JSON number token starting at `cs`. -/
def pNumber (cs : List Char) : Option (List Char × List Char) :=
  match pNum cs with
  | none => none
  | some (intPart, r1) =>
    let f := pFrac r1
    let e := pExp f.2
    some (intPart ++ f.1 ++ e.1, e.2)

mutual

/-- One JSON value (with leading whitespace), fuel-bounded. -/
def pVal : Nat → List Char → Option (Json × List Char)
  | 0, _ => none
  | n + 1, cs =>
    match skipWs cs with
    | [] => none
    | '"' :: r =>
      match pStrChars (r.length + 1) r with
      | some (sChars, rest) => some (.str ⟨sChars⟩, rest)
      | none => none
    | '\x7b' :: r =>
      match skipWs r with
      | '\x7d' :: rest => some (.obj [], rest)
      | r2 =>
        match pMembers n r2 with
        | some (kvs, rest) => some (.obj kvs, rest)
        | none => none
    | '[' :: r =>
      match skipWs r with
      | ']' :: rest => some (.arr [], rest)
      | r2 =>
        match pItems n r2 with
        | some (xs, rest) => some (.arr xs, rest)
        | none => none
    | 't' :: 'r' :: 'u' :: 'e' :: r => some (.bool true, r)
    | 'f' :: 'a' :: 'l' :: 's' :: 'e' :: r => some (.bool false, r)
    | 'n' :: 'u' :: 'l' :: 'l' :: r => some (.null, r)
    | c :: r =>
      if c = '-' || isDigit c then
        match pNumber (c :: r) with
        | some (lit, rest) => some (.num ⟨lit⟩, rest)
        | none => none
      else none

/-- Comma-separated array items, consuming the closing `]`. -/
def pItems : Nat → List Char → Option (List Json × List Char)
  | 0, _ => none
  | n + 1, cs =>
    match pVal n cs with
    | none => none
    | some (j, rest) =>
      match skipWs rest with
      | ',' :: r2 => (pItems n r2).map (fun p => (j :: p.1, p.2))
      | ']' :: r2 => some ([j], r2)
      | _ => none

/-- Comma-separated object members, consuming the closing brace. -/
def pMembers : Nat → List Char → Option (List (String × Json) × List Char)
  | 0, _ => none
  | n + 1, cs =>
    match skipWs cs with
    | '"' :: r =>
      match pStrChars (r.length + 1) r with
      | none => none
      | some (kChars, r2) =>
        match skipWs r2 with
        | ':' :: r3 =>
          match pVal n r3 with
          | none => none
          | some (v, r4) =>
            match skipWs r4 with
            | ',' :: r5 => (pMembers n r5).map (fun p => ((⟨kChars⟩, v) :: p.1, p.2))
            | '\x7d' :: r5 => some ([(⟨kChars⟩, v)], r5)
            | _ => none
        | _ => none
    | _ => none

end

/-- Python `json.loads`: parse one value, allow trailing whitespace
only.  `none` models `json.JSONDecodeError`.  (Python's nonstandard
`NaN`/`Infinity` literals are not modelled; no claim involves them.) -/
def jsonLoads (s : String) : Option Json :=
  match pVal (s.data.length + 1) s.data with
  | some (j, rest) => if skipWs rest = [] then some j else none
  | none => none

/-- A Python exception other than `json.JSONDecodeError`: these escape
the inner `except` handler of `fn` and reach the outer catch-all. -/
inductive PyErr where
  | keyError (k : String)
  | typeError (msg : String)
  | attrError (msg : String)
  | other (msg : String)
deriving Repr, DecidableEq

/-- Python `str(e)` for the exceptions above (`str` of a `KeyError`
is the `repr` of the missing key, quotes included). -/
def errStr : PyErr → String
  | .keyError k => "\x27" ++ k ++ "\x27"
  | .typeError m => m
  | .attrError m => m
  | .other m => m

/-- Lookup in a parsed JSON object; duplicate keys follow Python dict
construction, where the last occurrence wins. -/
def lookupLast (kvs : List (String × Json)) (k : String) : Option Json :=
  kvs.foldl (fun acc p => if p.1 = k then some p.2 else acc) none

/-- Python `j[k]` for a string key `k`. -/
def pySubscript (j : Json) (k : String) : Except PyErr Json :=
  match j with
  | .obj kvs =>
    match lookupLast kvs k with
    | some v => .ok v
    | none => .error (.keyError k)
  | .arr _ => .error (.typeError "list indices must be integers or slices, not str")
  | .str _ => .error (.typeError "string indices must be integers, not \x27str\x27")
  | _ => .error (.typeError "object is not subscriptable")

/-- Python truthiness of a JSON-decoded value (`if chunk["choices"]:`).
A number is falsy exactly when its mantissa digits are all zero. -/
def truthy : Json → Bool
  | .null => false
  | .bool b => b
  | .num lit =>
    !((lit.data.takeWhile (fun c => c ≠ 'e' && c ≠ 'E')).all
        (fun c => !isDigit c || c = '0'))
  | .str s => s != ""
  | .arr xs => !xs.isEmpty
  | .obj kvs => !kvs.isEmpty

/-- Python `j[0]`.  (`dict[0]` raises `KeyError: 0`; its `str` form is
modelled approximately, no claim depends on that message.) -/
def pyIndexZero (j : Json) : Except PyErr Json :=
  match j with
  | .arr (x :: _) => .ok x
  | .arr [] => .error (.other "list index out of range")
  | .str s =>
    match s.data with
    | c :: _ => .ok (.str ⟨[c]⟩)
    | [] => .error (.other "string index out of range")
  | .obj _ => .error (.keyError "0")
  | _ => .error (.typeError "object is not subscriptable")

/-- Python `delta.get("content", "")`: only dicts have `.get`. -/
def pyGetContent (j : Json) : Except PyErr Json :=
  match j with
  | .obj kvs => .ok ((lookupLast kvs "content").getD (.str ""))
  | .str _ => .error (.attrError "\x27str\x27 object has no attribute \x27get\x27")
  | .arr _ => .error (.attrError "\x27list\x27 object has no attribute \x27get\x27")
  | .num _ => .error (.attrError "\x27int\x27 object has no attribute \x27get\x27")
  | .bool _ => .error (.attrError "\x27bool\x27 object has no attribute \x27get\x27")
  | .null => .error (.attrError "\x27NoneType\x27 object has no attribute \x27get\x27")

/-- Lines 62-64 of the source, on one parsed chunk:
`if chunk["choices"]: delta = chunk["choices"][0]["delta"].get("content", ""); ...`.
`ok (some d)` means a delta `d` is appended and a snapshot yielded,
`ok none` means the falsy-`choices` branch (nothing yielded), `error e`
means a Python exception escaping to the outer handler (a non-string
delta makes the subsequent `partial_message += delta` raise; that
`TypeError` is folded in here). -/
def chunkDelta (chunk : Json) : Except PyErr (Option String) := do
  let choices ← pySubscript chunk "choices"
  if truthy choices then
    let c0 ← pyIndexZero choices
    let d ← pySubscript c0 "delta"
    let contentVal ← pyGetContent d
    match contentVal with
    | .str s => pure (some s)
    | _ => .error (.typeError "can only concatenate str (not \x22NoneType\x22) to str")
  else
    pure none

/-- What the loop body of `fn` (lines 56-67) does with one line. -/
inductive StepOut where
  | skip
  | emit (delta : String)
  | fail (msg : String)
deriving Repr, DecidableEq

/-- One iteration of `for line in response.iter_lines()`: empty lines
are skipped (`if line:`), non-`data:` lines and the exact sentinel
`data: [DONE]` are skipped, unparseable payloads are skipped
(`except json.JSONDecodeError: continue`), and any other Python
exception becomes `fail` (handled by the outer catch-all). -/
def processLine (line : String) : StepOut :=
  if line = "" then .skip
  else if pyStartsWith line "data:" && line != "data: [DONE]" then
    match jsonLoads (pyStrip (pyDrop 5 line)) with
    | none => .skip
    | some chunk =>
      match chunkDelta chunk with
      | .error e => .fail (errStr e)
      | .ok none => .skip
      | .ok (some d) => .emit d
  else .skip

/-- The streaming loop of `fn` (lines 54-67) together with the outer
`except Exception` handler (lines 69-71): the values yielded while
iterating over `lines` with accumulator `acc` (`partial_message`).
An escaping exception ends the generator with one `"Error: ..."`
value. -/
def streamLoop (acc : String) : List String → List String
  | [] => []
  | l :: rest =>
    match processLine l with
    | .skip => streamLoop acc rest
    | .emit d => (acc ++ d) :: streamLoop (acc ++ d) rest
    | .fail m => ["Error: " ++ m]

/-- What one call of `fn` receives from the transport: either the
decoded lines of a successful streaming response, or the message of an
exception raised by `requests.post`/`response.raise_for_status`
(connection failure or non-success HTTP status). -/
structure Transport where
  callError : Option String
  lines : List String

/-- The full generator `fn` (lines 31-71): `postprocess` is the
identity (line 122), so the yielded values are the accumulator
snapshots, with any transport failure converted by the outer handler
into a single `"Error: ..."` value. -/
def fn (t : Transport) : List String :=
  match t.callError with
  | some e => ["Error: " ++ e]
  | none => streamLoop "" t.lines

/-- One entry of the `messages` list built by `preprocess`.  The chat
path always stores string content (`str(...)` coercion; the inputs are
modelled as the strings they coerce to). -/
structure ChatMessage where
  role : String
  content : String
deriving Repr, DecidableEq

/-- The body of the `for user_msg, assistant_msg in history` loop of
`preprocess` (lines 113-116): append the user message, and the
assistant message only when present. -/
def addTurn (ms : List ChatMessage) (p : String × Option String) : List ChatMessage :=
  let ms := ms ++ [⟨"user", p.1⟩]
  match p.2 with
  | some a => ms ++ [⟨"assistant", a⟩]
  | none => ms

/-- `preprocess` (lines 105-120): optional system message, then for
each history pair a user message followed — when the assistant side is
present — by an assistant message, then the current message.  The
`if system_prompt:` test is Python truthiness, so an empty string
behaves like `None`. -/
def preprocess (message : String) (history : List (String × Option String))
    (system_prompt : Option String) : List ChatMessage :=
  let messages : List ChatMessage :=
    match system_prompt with
    | some sp => if sp != "" then [⟨"system", sp⟩] else []
    | none => []
  let messages := history.foldl addTurn messages
  messages ++ [⟨"user", message⟩]

/-- Credential resolution of `registry` (lines 141-143):
`api_key = token or os.environ.get("NOVITA_API_KEY")`, then
`if not api_key: raise ValueError(...)`.  `token` and the environment
value are `Option String` (`None` when absent); Python's `or` and
`not` use truthiness, so empty strings fall through / fail.  `registry`
performs no network activity at all — the error is raised during pure
setup, before `fn` could ever issue its HTTP request. -/
def registryApiKey (token : Option String) (envKey : Option String) :
    Except String String :=
  let api_key : Option String :=
    match token with
    | some t => if t != "" then some t else envKey
    | none => envKey
  match api_key with
  | some k =>
    if k != "" then .ok k
    else .error "NOVITA_API_KEY environment variable is not set."
  | none => .error "NOVITA_API_KEY environment variable is not set."

/-- The extension part (dot included) returned by
`os.path.splitext(p)[1]` on POSIX: the last `.` of the final path
component counts only if a non-dot character precedes it within that
component. -/
def splitextExt (p : String) : String :=
  let base := (p.data.reverse.takeWhile (fun c => c ≠ '/')).reverse
  let extRev := base.reverse.takeWhile (fun c => c ≠ '.')
  if extRev.length = base.length then ""
  else
    let beforeDot := base.take (base.length - extRev.length - 1)
    if beforeDot.any (fun c => c ≠ '.') then ⟨'.' :: extRev.reverse⟩ else ""

/-- Python `files[-1]` under the guard `len(files) > 0` (the default is
never reached through `handle_user_msg`). -/
def lastD : List String → String
  | [] => ""
  | [x] => x
  | _ :: x :: xs => lastD (x :: xs)

def b64chars : List Char :=
  "ABCDEFGHIJKLMNOPQRSTUVWXYZabcdefghijklmnopqrstuvwxyz0123456789+/".data

def b64char (n : Nat) : Char := (b64chars.drop n).headD 'A'

/-- Standard base64 of a byte sequence, as `base64.b64encode`. -/
def b64encode : List Nat → String
  | [] => ""
  | [a] =>
    let a := a % 256
    ⟨[b64char (a / 4), b64char (a % 4 * 16), '=', '=']⟩
  | [a, b] =>
    let a := a % 256
    let b := b % 256
    ⟨[b64char (a / 4), b64char (a % 4 * 16 + b / 16), b64char (b % 16 * 4), '=']⟩
  | a :: b :: c :: rest =>
    let a := a % 256
    let b := b % 256
    let c := c % 256
    (⟨[b64char (a / 4), b64char (a % 4 * 16 + b / 16),
       b64char (b % 16 * 4 + c / 64), b64char (c % 64)]⟩ : String)
      ++ b64encode rest

/-- `get_image_base64` (lines 25-28): the bytes of the local file are
base64-encoded into a data URI.  The filesystem is modelled as the
function `readFile` from paths to byte lists. -/
def get_image_base64 (readFile : String → List Nat) (url : String) (ext : String) :
    String :=
  "data:image/" ++ ext ++ ";base64," ++ b64encode (readFile url)

/-- The content `handle_user_msg` produces: plain text, or the
text block together with an `image_url` block holding the data URI. -/
inductive Content where
  | text (s : String)
  | textAndImage (text : String) (imageUrl : String)
deriving Repr, DecidableEq

/-- Input to `handle_user_msg`: a plain string, or a dict with a
`"text"` field and an optional `"files"` list. -/
inductive UserMessage where
  | str (s : String)
  | dict (text : String) (files : Option (List String))

/-- `handle_user_msg` (lines 75-98).  `NotImplementedError` is
modelled as `Except.error` with the exception's message; the function
touches no network, so an unsupported extension fails before any
network call could occur. -/
def handle_user_msg (readFile : String → List Nat) (message : UserMessage) :
    Except String Content :=
  match message with
  | .str s => .ok (.text s)
  | .dict text files =>
    match files with
    | some fs =>
      if 0 < fs.length then
        let f := lastD fs
        let ext := pyStripDots (splitextExt f)
        if asciiLower ext ∈ ["png", "jpg", "jpeg", "gif"] then
          .ok (.textAndImage text (get_image_base64 readFile f ext))
        else
          .error ("Not supported file type " ++ ext)
      else .ok (.text text)
    | none => .ok (.text text)

/-! ### Derived notions used to state the claims -/

/-- A line the loop body of `fn` actually processes: nonempty,
`data:`-prefixed, and not the `[DONE]` sentinel. -/
def IsDataFrame (l : String) : Prop :=
  l ≠ "" ∧ pyStartsWith l "data:" = true ∧ l ≠ "data: [DONE]"

instance (l : String) : Decidable (IsDataFrame l) := by
  unfold IsDataFrame; infer_instance

/-- A frame the loop looks at whose payload `json.loads` rejects. -/
def MalformedFrame (l : String) : Prop :=
  IsDataFrame l ∧ jsonLoads (pyStrip (pyDrop 5 l)) = none

/-- The message of the first Python exception that escapes the inner
handler while processing `lines`, if any. -/
def firstFail : List String → Option String
  | [] => none
  | l :: rest =>
    match processLine l with
    | .fail m => some m
    | _ => firstFail rest

/-- The accumulator snapshots `streamLoop` yields before any escaping
exception. -/
def emitsOnly (acc : String) : List String → List String
  | [] => []
  | l :: rest =>
    match processLine l with
    | .skip => emitsOnly acc rest
    | .emit d => (acc ++ d) :: emitsOnly (acc ++ d) rest
    | .fail _ => []

/-- `a` is an initial segment of `b` (the accumulator only ever grows
by appending). -/
def ExtendedBy (a b : String) : Prop := ∃ u, b = a ++ u

/-! ### Helper lemmas -/

theorem processLine_done : processLine "data: [DONE]" = .skip := by
  decide

theorem processLine_of_dataFrame (l : String) (h : IsDataFrame l) :
    processLine l =
      (match jsonLoads (pyStrip (pyDrop 5 l)) with
        | none => .skip
        | some chunk =>
          match chunkDelta chunk with
          | .error e => .fail (errStr e)
          | .ok none => .skip
          | .ok (some d) => .emit d) := by
  obtain ⟨h0, h1, h2⟩ := h
  unfold processLine
  rw [if_neg h0, if_pos]
  rw [h1, Bool.true_and, bne_iff_ne]
  exact h2

theorem processLine_of_malformed (l : String) (h : MalformedFrame l) :
    processLine l = .skip := by
  rw [processLine_of_dataFrame l h.1, h.2]

theorem streamLoop_append_done (frames : List String) (acc : String) :
    streamLoop acc (frames ++ ["data: [DONE]"]) = streamLoop acc frames := by
  induction frames generalizing acc with
  | nil => simp [streamLoop, processLine_done]
  | cons l rest ih =>
    rw [List.cons_append]
    cases h : processLine l with
    | skip =>
      simp only [streamLoop, h]
      exact ih acc
    | emit d =>
      simp only [streamLoop, h]
      rw [ih]
    | fail m => simp only [streamLoop, h]

theorem streamLoop_emit_cons (acc l d : String) (rest : List String)
    (h : processLine l = .emit d) :
    streamLoop acc (l :: rest) = (acc ++ d) :: streamLoop (acc ++ d) rest := by
  simp only [streamLoop, h]

theorem streamLoop_skip_cons (acc l : String) (rest : List String)
    (h : processLine l = .skip) :
    streamLoop acc (l :: rest) = streamLoop acc rest := by
  simp only [streamLoop, h]

theorem streamLoop_fail_cons (acc l m : String) (rest : List String)
    (h : processLine l = .fail m) :
    streamLoop acc (l :: rest) = ["Error: " ++ m] := by
  simp only [streamLoop, h]

theorem streamLoop_decomp (frames : List String) (acc : String) :
    streamLoop acc frames =
      emitsOnly acc frames ++
        ((firstFail frames).elim [] (fun m => ["Error: " ++ m])) := by
  induction frames generalizing acc with
  | nil => rfl
  | cons l rest ih =>
    cases h : processLine l with
    | skip =>
      simp only [streamLoop, emitsOnly, firstFail, h]
      exact ih acc
    | emit d =>
      simp only [streamLoop, emitsOnly, firstFail, h]
      rw [ih, List.cons_append]
    | fail m =>
      simp only [streamLoop, emitsOnly, firstFail, h]
      simp

theorem emitsOnly_chain (frames : List String) (acc : String) :
    (∀ x ∈ emitsOnly acc frames, ExtendedBy acc x) ∧
      List.Chain' ExtendedBy (emitsOnly acc frames) := by
  induction frames generalizing acc with
  | nil =>
    refine ⟨?_, ?_⟩
    · intro x hx
      simp [emitsOnly] at hx
    · exact List.chain'_nil
  | cons l rest ih =>
    cases h : processLine l with
    | skip =>
      simp only [emitsOnly, h]
      exact ih acc
    | fail m =>
      simp only [emitsOnly, h]
      refine ⟨?_, List.chain'_nil⟩
      intro x hx
      simp at hx
    | emit d =>
      simp only [emitsOnly, h]
      obtain ⟨mem, chain⟩ := ih (acc ++ d)
      refine ⟨?_, ?_⟩
      · intro x hx
        rcases List.mem_cons.mp hx with hx | hx
        · exact ⟨d, hx⟩
        · obtain ⟨u, hu⟩ := mem x hx
          exact ⟨d ++ u, by rw [hu, String.append_assoc]⟩
      · refine List.chain'_cons'.mpr ⟨?_, chain⟩
        intro y hy
        exact mem y (List.mem_of_mem_head? hy)

theorem chain'_dropLast {α : Type} (R : α → α → Prop) (l : List α)
    (h : List.Chain' R l) : List.Chain' R l.dropLast := by
  induction l with
  | nil => exact List.chain'_nil
  | cons a t ih =>
    cases t with
    | nil => exact List.chain'_nil
    | cons b t2 =>
      rw [List.dropLast_cons₂]
      rcases List.chain'_cons'.mp h with ⟨hab, ht⟩
      refine List.chain'_cons'.mpr ⟨?_, ih ht⟩
      intro y hy
      apply hab
      cases t2 with
      | nil => cases hy
      | cons c t3 => exact hy

/-- The two messages (or one, when the assistant side is absent) a
history pair contributes. -/
def turnMessages (p : String × Option String) : List ChatMessage :=
  ⟨"user", p.1⟩ ::
    (match p.2 with
      | some a => [⟨"assistant", a⟩]
      | none => [])

/-- All messages the history loop contributes, in order. -/
def historyMessages : List (String × Option String) → List ChatMessage
  | [] => []
  | p :: t => turnMessages p ++ historyMessages t

theorem foldl_addTurn (hist : List (String × Option String))
    (ms : List ChatMessage) :
    hist.foldl addTurn ms = ms ++ historyMessages hist := by
  induction hist generalizing ms with
  | nil => simp [historyMessages]
  | cons p t ih =>
    rw [List.foldl_cons, ih]
    cases hp : p.2 with
    | some a => simp [addTurn, historyMessages, turnMessages, hp]
    | none => simp [addTurn, historyMessages, turnMessages, hp]

theorem historyMessages_length (hist : List (String × Option String))
    (h : ∀ p ∈ hist, p.2 ≠ none) :
    (historyMessages hist).length = 2 * hist.length := by
  induction hist with
  | nil => simp [historyMessages]
  | cons p t ih =>
    have hp : p.2 ≠ none := h p (List.mem_cons_self p t)
    obtain ⟨a, ha⟩ := Option.ne_none_iff_exists'.mp hp
    have ht := ih (fun q hq => h q (List.mem_cons_of_mem p hq))
    simp [historyMessages, turnMessages, ha, ht]
    omega

theorem lastD_concat (fs : List String) (f : String) :
    lastD (fs ++ [f]) = f := by
  induction fs with
  | nil => rfl
  | cons a t ih =>
    cases t with
    | nil => rfl
    | cons b t2 =>
      rw [List.cons_append]
      exact ih

theorem except_bind_ok {e a b : Type} (x : a) (f : a → Except e b) :
    (Except.ok x >>= f) = f x := rfl

theorem except_bind_error {e a b : Type} (err : e) (f : a → Except e b) :
    ((Except.error err : Except e a) >>= f) = Except.error err := rfl

theorem except_pure {e a : Type} (x : a) :
    (pure x : Except e a) = Except.ok x := rfl

/-! ### Claims -/

/-- C1, counterexample: the claim says that after the frame
`data: [DONE]` no further output is emitted regardless of following
frames.  The loop body (line 58) merely skips that frame without
breaking out of `for line in response.iter_lines()`, so a valid delta
frame placed after the sentinel still produces output: here the value
`"X"` is emitted after `data: [DONE]` was received. -/
theorem c1_sentinel_counterexample :
    streamLoop ""
        ["data: [DONE]",
         "data: \x7b\"choices\":[\x7b\"delta\":\x7b\"content\":\"X\"\x7d\x7d]\x7d"]
      = ["X"] := by
  decide

/-- C1, amended: the `data: [DONE]` sentinel frame itself emits no
output (it is skipped by the `line != "data: [DONE]"` test), and since
the server sends it as the final frame of a response, a stream ending
in the sentinel emits nothing further: appending the sentinel to any
frame list leaves the emitted sequence unchanged.  The loop does not
break on the sentinel, so frames after it would still be processed. -/
theorem c1_sentinel_amended (acc : String) (frames : List String) :
    processLine "data: [DONE]" = .skip ∧
      streamLoop acc (frames ++ ["data: [DONE]"]) = streamLoop acc frames :=
  ⟨processLine_done, streamLoop_append_done frames acc⟩

/-- C2: feeding the two `Hi` / ` there` delta frames and then the
sentinel yields exactly `"Hi"`, `"Hi there"` and stops; and in general
every frame that contributes a delta `d` makes the stream emit the
whole accumulated message `acc ++ d` (and continue from it), not the
bare delta. -/
theorem c2_cumulative_snapshots :
    fn ⟨none,
        ["data: \x7b\"choices\":[\x7b\"delta\":\x7b\"content\":\"Hi\"\x7d\x7d]\x7d",
         "data: \x7b\"choices\":[\x7b\"delta\":\x7b\"content\":\" there\"\x7d\x7d]\x7d",
         "data: [DONE]"]⟩
      = ["Hi", "Hi there"] ∧
    ∀ acc l d rest, processLine l = .emit d →
      streamLoop acc (l :: rest) = (acc ++ d) :: streamLoop (acc ++ d) rest := by
  refine ⟨by decide, ?_⟩
  intro acc l d rest h
  exact streamLoop_emit_cons acc l d rest h

/-- C2, witness: the general conjunct applied to the concrete ` there`
frame with accumulator `"Hi"`. -/
theorem c2_cumulative_snapshots_witness :
    streamLoop "Hi"
        ["data: \x7b\"choices\":[\x7b\"delta\":\x7b\"content\":\" there\"\x7d\x7d]\x7d"]
      = ["Hi there"] := by
  rw [c2_cumulative_snapshots.2 "Hi"
      "data: \x7b\"choices\":[\x7b\"delta\":\x7b\"content\":\" there\"\x7d\x7d]\x7d"
      " there" [] (by decide)]
  decide

/-- C3: a frame whose payload `json.loads` rejects, placed between two
delta-emitting frames, is silently skipped: exactly the two snapshots
from the valid deltas are emitted and accumulation is uninterrupted. -/
theorem c3_malformed_skipped (l1 l2 l3 d1 d3 : String)
    (h1 : processLine l1 = .emit d1) (h2 : MalformedFrame l2)
    (h3 : processLine l3 = .emit d3) :
    streamLoop "" [l1, l2, l3] = [d1, d1 ++ d3] := by
  rw [streamLoop_emit_cons "" l1 d1 _ h1, String.empty_append,
    streamLoop_skip_cons d1 l2 _ (processLine_of_malformed l2 h2),
    streamLoop_emit_cons d1 l3 d3 _ h3]
  rfl

/-- C3, witness: `Hi` frame, unparseable `data: \x7bgarbage` frame,
` there` frame: exactly `"Hi"` then `"Hi there"`. -/
theorem c3_malformed_skipped_witness :
    streamLoop ""
        ["data: \x7b\"choices\":[\x7b\"delta\":\x7b\"content\":\"Hi\"\x7d\x7d]\x7d",
         "data: \x7bgarbage",
         "data: \x7b\"choices\":[\x7b\"delta\":\x7b\"content\":\" there\"\x7d\x7d]\x7d"]
      = ["Hi", "Hi" ++ " there"] :=
  c3_malformed_skipped
    "data: \x7b\"choices\":[\x7b\"delta\":\x7b\"content\":\"Hi\"\x7d\x7d]\x7d"
    "data: \x7bgarbage"
    "data: \x7b\"choices\":[\x7b\"delta\":\x7b\"content\":\" there\"\x7d\x7d]\x7d"
    "Hi" " there" (by decide) ⟨by decide, rfl⟩ (by decide)

/-- C4: a transport-level failure of `requests.post` /
`raise_for_status` (modelled as `Transport.callError`) is caught by the
outer handler and converted into the single terminal value
`"Error: " ++ e`; the call emits nothing else and no exception
propagates (the model is a total function). -/
theorem c4_transport_error (e : String) (lines : List String) :
    fn ⟨some e, lines⟩ = ["Error: " ++ e] := rfl

theorem extendedBy_firstChar (a b : String) (h : ExtendedBy a b) :
    a.data = [] ∨ a.data.head? = b.data.head? := by
  obtain ⟨u, hu⟩ := h
  cases ha : a.data with
  | nil => exact Or.inl rfl
  | cons c t =>
    right
    rw [hu, String.data_append, ha]
    rfl

/-- C5, counterexample: the claim says every emitted value has the
previously emitted value as a prefix.  A syntactically valid frame
whose chunk lacks `"choices"` raises `KeyError`, which the inner
`except json.JSONDecodeError` does not catch; the outer handler then
yields `"Error: 'choices'"` after the earlier snapshot `"Hi"`, and
`"Hi"` is not a prefix of that error value. -/
theorem c5_monotonic_counterexample :
    streamLoop ""
        ["data: \x7b\"choices\":[\x7b\"delta\":\x7b\"content\":\"Hi\"\x7d\x7d]\x7d",
         "data: \x7b\x7d"]
      = ["Hi", "Error: \x27choices\x27"] ∧
    ¬ ExtendedBy "Hi" "Error: \x27choices\x27" := by
  refine ⟨by decide, fun h => ?_⟩
  rcases extendedBy_firstChar _ _ h with h2 | h2
  · exact absurd h2 (by decide)
  · exact absurd h2 (by decide)

/-- C5, amended: the accumulator is only ever extended, so within one
call every emitted value extends the previous one — except for the
single terminal `"Error: ..."` value produced by the outer exception
handler, which may break the chain.  Formally: the emitted sequence
without its last element is always a chain under `ExtendedBy`, and
when no exception escapes during streaming the whole emitted sequence
is such a chain. -/
theorem c5_monotonic_amended (t : Transport) :
    List.Chain' ExtendedBy ((fn t).dropLast) ∧
      (firstFail t.lines = none → List.Chain' ExtendedBy (fn t)) := by
  obtain ⟨err, lines⟩ := t
  cases err with
  | some e =>
    refine ⟨?_, fun _ => ?_⟩
    · exact List.chain'_nil
    · exact List.chain'_singleton _
  | none =>
    have hdec := streamLoop_decomp lines ""
    have hchain := (emitsOnly_chain lines "").2
    cases hf : firstFail lines with
    | none =>
      have houts : fn ⟨none, lines⟩ = emitsOnly "" lines := by
        show streamLoop "" lines = _
        rw [hdec, hf]
        exact List.append_nil _
      refine ⟨?_, fun _ => ?_⟩
      · rw [houts]
        exact chain'_dropLast _ _ hchain
      · rw [houts]
        exact hchain
    | some m =>
      have houts : fn ⟨none, lines⟩ = emitsOnly "" lines ++ ["Error: " ++ m] := by
        show streamLoop "" lines = _
        rw [hdec, hf]
        rfl
      refine ⟨?_, fun hcontra => ?_⟩
      · rw [houts, List.dropLast_concat]
        exact hchain
      · exact absurd hcontra (by simp)

/-- C5 amended, witness: a clean two-frame stream, where the whole
emitted sequence is a chain. -/
theorem c5_monotonic_amended_witness :
    List.Chain' ExtendedBy
      (fn ⟨none,
        ["data: \x7b\"choices\":[\x7b\"delta\":\x7b\"content\":\"Hi\"\x7d\x7d]\x7d",
         "data: \x7b\"choices\":[\x7b\"delta\":\x7b\"content\":\" there\"\x7d\x7d]\x7d"]⟩) :=
  (c5_monotonic_amended ⟨none,
      ["data: \x7b\"choices\":[\x7b\"delta\":\x7b\"content\":\"Hi\"\x7d\x7d]\x7d",
       "data: \x7b\"choices\":[\x7b\"delta\":\x7b\"content\":\" there\"\x7d\x7d]\x7d"]⟩).2
    (by decide)

/-- C6: with every assistant side present and a (truthy) system
prompt optional, the built message list is ordered system-first, then
the history pairs chronologically, then the newest user message, and
its length is `2 * N + 1` without and `2 * N + 2` with a system
prompt. -/
theorem c6_preprocess_shape (history : List (String × Option String))
    (message sp : String)
    (hall : ∀ p ∈ history, p.2 ≠ none) (hsp : sp ≠ "") :
    preprocess message history none
        = historyMessages history ++ [⟨"user", message⟩] ∧
    preprocess message history (some sp)
        = ⟨"system", sp⟩ :: (historyMessages history ++ [⟨"user", message⟩]) ∧
    (preprocess message history none).length = 2 * history.length + 1 ∧
    (preprocess message history (some sp)).length = 2 * history.length + 2 := by
  have hnone : preprocess message history none
      = historyMessages history ++ [⟨"user", message⟩] := by
    show List.foldl addTurn [] history ++ _ = _
    rw [foldl_addTurn, List.nil_append]
  have hsome : preprocess message history (some sp)
      = ⟨"system", sp⟩ :: (historyMessages history ++ [⟨"user", message⟩]) := by
    show (List.foldl addTurn (if sp != "" then [⟨"system", sp⟩] else []) history)
        ++ _ = _
    rw [if_pos (by simpa [bne_iff_ne] using hsp), foldl_addTurn,
      List.cons_append, List.nil_append, List.cons_append]
  have hlen := historyMessages_length history hall
  refine ⟨hnone, hsome, ?_, ?_⟩
  · rw [hnone]
    simp [hlen]
  · rw [hsome]
    simp [hlen]

/-- C6, witness: one complete turn, current message `"m"`, system
prompt `"s"`. -/
theorem c6_preprocess_shape_witness :
    preprocess "m" [("u", some "a")] none
        = historyMessages [("u", some "a")] ++ [⟨"user", "m"⟩] ∧
    preprocess "m" [("u", some "a")] (some "s")
        = ⟨"system", "s"⟩ :: (historyMessages [("u", some "a")] ++ [⟨"user", "m"⟩]) ∧
    (preprocess "m" [("u", some "a")] none).length = 2 * 1 + 1 ∧
    (preprocess "m" [("u", some "a")] (some "s")).length = 2 * 1 + 2 := by
  exact c6_preprocess_shape [("u", some "a")] "m" "s"
    (by intro p hp; simp at hp; simp [hp]) (by decide)

/-- C7: with no explicit token and no environment value the
credential resolution of `registry` fails with the configuration
error (and `registry` performs no network activity anywhere, so the
failure precedes any network call); a truthy explicit token is used
in preference to whatever the environment holds. -/
theorem c7_registry_credential :
    registryApiKey none none
        = .error "NOVITA_API_KEY environment variable is not set." ∧
    ∀ t env, t ≠ "" → registryApiKey (some t) env = .ok t := by
  refine ⟨rfl, ?_⟩
  intro t env ht
  have hbt : (t != "") = true := by simpa [bne_iff_ne] using ht
  simp [registryApiKey, hbt]

/-- C7, witness: an explicit token wins over a set environment
variable. -/
theorem c7_registry_credential_witness :
    registryApiKey (some "tok") (some "envkey") = .ok "tok" :=
  c7_registry_credential.2 "tok" (some "envkey") (by decide)

/-- C8: only the most recent attachment is considered (prepending
other files changes nothing); a last file whose extension lowercases
into `{png, jpg, jpeg, gif}` yields the text block together with the
base64 data URI of the file's bytes; any other extension raises the
explicit `NotImplementedError` (`handle_user_msg` touches no network,
so the failure precedes any network call). -/
theorem c8_attachments (rf : String → List Nat) (text : String)
    (fs : List String) (f : String) :
    handle_user_msg rf (.dict text (some (fs ++ [f])))
        = handle_user_msg rf (.dict text (some [f])) ∧
    (asciiLower (pyStripDots (splitextExt f)) ∈ ["png", "jpg", "jpeg", "gif"] →
      handle_user_msg rf (.dict text (some (fs ++ [f])))
        = .ok (.textAndImage text
            ("data:image/" ++ pyStripDots (splitextExt f) ++ ";base64,"
              ++ b64encode (rf f)))) ∧
    (asciiLower (pyStripDots (splitextExt f)) ∉ ["png", "jpg", "jpeg", "gif"] →
      handle_user_msg rf (.dict text (some (fs ++ [f])))
        = .error ("Not supported file type " ++ pyStripDots (splitextExt f))) := by
  have key : ∀ gs : List String, 0 < gs.length → lastD gs = f →
      handle_user_msg rf (.dict text (some gs))
        = if asciiLower (pyStripDots (splitextExt f)) ∈ ["png", "jpg", "jpeg", "gif"]
          then .ok (.textAndImage text
            ("data:image/" ++ pyStripDots (splitextExt f) ++ ";base64,"
              ++ b64encode (rf f)))
          else .error ("Not supported file type " ++ pyStripDots (splitextExt f)) := by
    intro gs hg hlast
    simp only [handle_user_msg, get_image_base64]
    rw [if_pos hg, hlast]
  have h1 := key (fs ++ [f]) (by simp) (lastD_concat fs f)
  have h2 := key [f] (by simp) rfl
  refine ⟨h1.trans h2.symm, fun hmem => ?_, fun hmem => ?_⟩
  · rw [h1, if_pos hmem]
  · rw [h1, if_neg hmem]

/-- C8, witness: a trailing `.bmp` attachment fails even with an image
earlier in the list, and a trailing `.PNG` attachment (uppercase) is
encoded into a data URI (bytes `[1, 2, 3]` encode to `"AQID"`). -/
theorem c8_attachments_witness :
    handle_user_msg (fun _ => [1, 2, 3])
        (.dict "hi" (some (["keep.png"] ++ ["b.bmp"])))
      = .error ("Not supported file type " ++ pyStripDots (splitextExt "b.bmp")) ∧
    handle_user_msg (fun _ => [1, 2, 3]) (.dict "hi" (some ([] ++ ["c.PNG"])))
      = .ok (.textAndImage "hi"
          ("data:image/" ++ pyStripDots (splitextExt "c.PNG") ++ ";base64,"
            ++ b64encode [1, 2, 3])) :=
  ⟨(c8_attachments (fun _ => [1, 2, 3]) "hi" ["keep.png"] "b.bmp").2.2 (by decide),
   (c8_attachments (fun _ => [1, 2, 3]) "hi" [] "c.PNG").2.1 (by decide)⟩

/-- C9: a frame whose payload is valid JSON but — as a dict — lacks
`"choices"`, or whose first choice dict lacks `"delta"`, raises a
`KeyError` that the inner `except json.JSONDecodeError` does not
catch; the outer handler then ends the stream with the single value
`"Error: 'choices'"` (resp. `"Error: 'delta'"`) instead of
continuing with the remaining frames. -/
theorem c9_structured_frame_errors :
    (∀ acc l rest kvs, IsDataFrame l →
        jsonLoads (pyStrip (pyDrop 5 l)) = some (.obj kvs) →
        lookupLast kvs "choices" = none →
        streamLoop acc (l :: rest) = ["Error: " ++ errStr (.keyError "choices")]) ∧
    (∀ acc l rest kvs ckvs cs, IsDataFrame l →
        jsonLoads (pyStrip (pyDrop 5 l)) = some (.obj kvs) →
        lookupLast kvs "choices" = some (.arr (.obj ckvs :: cs)) →
        lookupLast ckvs "delta" = none →
        streamLoop acc (l :: rest) = ["Error: " ++ errStr (.keyError "delta")]) := by
  constructor
  · intro acc l rest kvs hdf hparse hkey
    refine streamLoop_fail_cons acc l _ rest ?_
    rw [processLine_of_dataFrame l hdf, hparse]
    simp [chunkDelta, pySubscript, hkey, except_bind_ok, except_bind_error, except_pure]
  · intro acc l rest kvs ckvs cs hdf hparse hch hdelta
    refine streamLoop_fail_cons acc l _ rest ?_
    rw [processLine_of_dataFrame l hdf, hparse]
    simp [chunkDelta, pySubscript, pyIndexZero, truthy, hch, hdelta,
      except_bind_ok, except_bind_error, except_pure]

/-- C9, witness: the two error cases at concrete frames. -/
theorem c9_structured_frame_errors_witness :
    streamLoop "" ["data: \x7b\"nochoices\":1\x7d"]
        = ["Error: " ++ errStr (.keyError "choices")] ∧
    streamLoop "" ["data: \x7b\"choices\":[\x7b\"nodelta\":1\x7d]\x7d"]
        = ["Error: " ++ errStr (.keyError "delta")] :=
  ⟨c9_structured_frame_errors.1 "" "data: \x7b\"nochoices\":1\x7d" []
      [("nochoices", .num "1")] (by decide) rfl rfl,
   c9_structured_frame_errors.2 "" "data: \x7b\"choices\":[\x7b\"nodelta\":1\x7d]\x7d" []
      [("choices", .arr [.obj [("nodelta", .num "1")]])]
      [("nodelta", .num "1")] [] (by decide) rfl rfl rfl⟩

/-- C10: a well-formed frame with a nonempty `choices` whose first
choice's delta dict lacks `"content"` appends `""` and still yields a
snapshot — a duplicate of the previous accumulator value — while a
frame whose `choices` list is empty yields nothing at all. -/
theorem c10_missing_content_vs_empty_choices :
    (∀ acc l rest kvs ckvs dkvs cs, IsDataFrame l →
        jsonLoads (pyStrip (pyDrop 5 l)) = some (.obj kvs) →
        lookupLast kvs "choices" = some (.arr (.obj ckvs :: cs)) →
        lookupLast ckvs "delta" = some (.obj dkvs) →
        lookupLast dkvs "content" = none →
        streamLoop acc (l :: rest) = acc :: streamLoop acc rest) ∧
    (∀ acc l rest kvs, IsDataFrame l →
        jsonLoads (pyStrip (pyDrop 5 l)) = some (.obj kvs) →
        lookupLast kvs "choices" = some (.arr []) →
        streamLoop acc (l :: rest) = streamLoop acc rest) := by
  constructor
  · intro acc l rest kvs ckvs dkvs cs hdf hparse hch hdelta hcontent
    have hpl : processLine l = .emit "" := by
      rw [processLine_of_dataFrame l hdf, hparse]
      simp [chunkDelta, pySubscript, pyIndexZero, pyGetContent, truthy, hch,
        hdelta, hcontent, except_bind_ok, except_bind_error, except_pure]
    rw [streamLoop_emit_cons acc l "" rest hpl, String.append_empty]
  · intro acc l rest kvs hdf hparse hch
    refine streamLoop_skip_cons acc l rest ?_
    rw [processLine_of_dataFrame l hdf, hparse]
    simp [chunkDelta, pySubscript, truthy, hch, except_bind_ok, except_bind_error, except_pure]

/-- C10, witness: with accumulator `"A"`, a `\x7b"delta":\x7b\x7d\x7d`
first choice re-emits `"A"`, while `"choices":[]` emits nothing. -/
theorem c10_missing_content_vs_empty_choices_witness :
    streamLoop "A" ["data: \x7b\"choices\":[\x7b\"delta\":\x7b\x7d\x7d]\x7d"]
        = "A" :: streamLoop "A" [] ∧
    streamLoop "A" ["data: \x7b\"choices\":[]\x7d"] = streamLoop "A" [] :=
  ⟨c10_missing_content_vs_empty_choices.1 "A"
      "data: \x7b\"choices\":[\x7b\"delta\":\x7b\x7d\x7d]\x7d" []
      [("choices", .arr [.obj [("delta", .obj [])]])]
      [("delta", .obj [])] [] [] (by decide) rfl rfl rfl rfl,
   c10_missing_content_vs_empty_choices.2 "A" "data: \x7b\"choices\":[]\x7d" []
      [("choices", .arr [])] (by decide) rfl rfl⟩

end Novita
